import Mathlib

/-!
The pre-packaging filter of serverless-selective-function-deploy.

A shallow embedding of `src/index.js` (class `SelectiveFunctionDeploy`).

* The registry `serverless.service.functions` is an association list from unit
  name to unit record; its order is the enumeration order of `Object.keys`.
  A JavaScript object has each key once, which is the predicate `WF`.
* A run of `excludeNonDeployableFunctions` returns an `Outcome`: the thrown
  error (if any), the registry as the call leaves it, and the log messages the
  call emitted, in emission order.
-/

namespace SelectiveFunctionDeploy

/-! ## JavaScript values -/

/-- The JavaScript values a configuration property can hold. -/
inductive JSVal where
  | undefined : JSVal
  | null : JSVal
  | bool (b : Bool) : JSVal
  | num (n : Int) : JSVal
  | str (s : String) : JSVal
  deriving DecidableEq, Repr

/-- The JavaScript operator `typeof`. -/
def typeof : JSVal → String
  | .undefined => "undefined"
  | .null => "object"
  | .bool _ => "boolean"
  | .num _ => "number"
  | .str _ => "string"

/-- JavaScript truthiness (`ToBoolean`), used by the operator `!`. -/
def truthy : JSVal → Bool
  | .undefined => false
  | .null => false
  | .bool b => b
  | .num n => n != 0
  | .str s => s != ""

/-! ## Data model -/

/-- A unit record: `toDeploy` is `none` when the record has no such property,
and `some v` when the property is there with value `v`; `rest` holds the other
properties of the record (`handler`, ...). -/
structure FunctionConfig where
  toDeploy : Option JSVal
  rest : List (String × JSVal)
  deriving DecidableEq, Repr

/-- The registry `serverless.service.functions`, in enumeration order. -/
abbrev Registry := List (String × FunctionConfig)

/-- The two log channels of the injected logger. -/
inductive LogEvent where
  | verbose (msg : String) : LogEvent
  | notice (msg : String) : LogEvent
  deriving DecidableEq, Repr

/-- What one call of `excludeNonDeployableFunctions` leaves behind. -/
structure Outcome where
  error : Option String
  functions : Registry
  log : List LogEvent
  deriving DecidableEq, Repr

/-- The state of the classification loop (lines 34-51). -/
structure LoopState where
  functions : Registry
  excludedFunctions : List String
  toDeployFunctions : List String
  deriving DecidableEq, Repr

/-! ## Constants -/

/-- The field `this.logPrefix` set by the constructor (line 6). -/
def logPrefix : String := "[serverless-selective-function-deploy]:"

/-- The message of the error thrown on line 42. -/
def booleanError : String := "toDeploy property must be a boolean"

/-- The message of the `TypeError` raised when line 39 destructures `undefined`
(a name whose record is no longer in the registry). The wording is the
engine's own; all that is used of it is that this error is not the one of
line 42. -/
def destructureError : String :=
  "Cannot destructure property 'toDeploy' of 'func' as it is undefined."

/-- The hint appended on line 60 when `options.verbose` is falsy. -/
def verboseHint : String := " For more details, use --verbose command."

/-! ## Operations -/

/-- The method `getAllFunctions` (lines 68-70): the keys of the registry. -/
def getAllFunctions (fs : Registry) : List String :=
  fs.map Prod.fst

/-- The method `getFunction` (lines 72-74): the record under a name, `none`
standing for `undefined`. -/
def getFunction (fs : Registry) (functionName : String) : Option FunctionConfig :=
  fs.lookup functionName

/-- The method `excludeFunctionFromDeployment` (lines 64-66):
`delete functions[functionName]`. -/
def excludeFunctionFromDeployment (fs : Registry) (functionName : String) : Registry :=
  fs.filter (fun p => p.1 != functionName)

/-- The destructuring `const { toDeploy = true } = func` (line 39): the default
applies when the property is missing or holds `undefined`. -/
def resolveToDeploy (func : FunctionConfig) : JSVal :=
  match func.toDeploy with
  | none => .bool true
  | some .undefined => .bool true
  | some v => v

/-- The classification loop `for (const functionName of allFunctions)`
(lines 37-51), run over the snapshot of names taken on line 28. The first
component is the error thrown, if any; the state is the one at that point. -/
def classifyLoop : List String → LoopState → Option String × LoopState
  | [], st => (none, st)
  | functionName :: names, st =>
    match getFunction st.functions functionName with
    | none => (some destructureError, st)
    | some func =>
      let toDeploy := resolveToDeploy func
      if typeof toDeploy != "boolean" then
        (some booleanError, st)
      else if !(truthy toDeploy) then
        classifyLoop names
          ⟨excludeFunctionFromDeployment st.functions functionName,
           st.excludedFunctions ++ [functionName], st.toDeployFunctions⟩
      else
        classifyLoop names
          ⟨st.functions, st.excludedFunctions, st.toDeployFunctions ++ [functionName]⟩

/-- The array method `join(', ')` on a list of names. -/
def joinNames (names : List String) : String :=
  String.intercalate ", " names

/-- The three verbose messages of lines 54-56. -/
def verboseReport (excludedFunctions toDeployFunctions : List String) : List LogEvent :=
  [ .verbose (logPrefix ++ " Pre-deployment function summary:"),
    .verbose (logPrefix ++ " Excluded " ++ toString excludedFunctions.length
      ++ " function(s): " ++ joinNames excludedFunctions),
    .verbose (logPrefix ++ " Included " ++ toString toDeployFunctions.length
      ++ " function(s): " ++ joinNames toDeployFunctions) ]

/-- The template string `summaryLog` of line 59. -/
def summaryLog (excludedCount keptCount totalCount : Nat) : String :=
  logPrefix ++ " Excluded " ++ toString excludedCount
    ++ " function(s) from deployment, deploying " ++ toString keptCount
    ++ " of " ++ toString totalCount ++ " function(s)."

/-- The string `verbosePrompt` of line 60. -/
def verbosePrompt (verbose : JSVal) : String :=
  if !(truthy verbose) then verboseHint else ""

/-- The method `excludeNonDeployableFunctions` (lines 27-62), called with
`options.verbose = verbose` on the registry `fs`. -/
def excludeNonDeployableFunctions (verbose : JSVal) (fs : Registry) : Outcome :=
  let allFunctions := getAllFunctions fs
  if allFunctions.length == 0 then
    ⟨none, fs, []⟩
  else
    match classifyLoop allFunctions ⟨fs, [], []⟩ with
    | (some err, st) => ⟨some err, st.functions, []⟩
    | (none, st) =>
      let report :=
        if st.excludedFunctions.length > 0 ∨ st.toDeployFunctions.length > 0 then
          verboseReport st.excludedFunctions st.toDeployFunctions
        else []
      ⟨none, st.functions,
        report ++ [.notice (summaryLog st.excludedFunctions.length
          st.toDeployFunctions.length allFunctions.length ++ verbosePrompt verbose)]⟩

/-! ## Derived notions used in the statements -/

/-- Well-formed registry: every unit name occurs once, as in a JavaScript object. -/
def WF (fs : Registry) : Prop := (fs.map Prod.fst).Nodup

instance (fs : Registry) : Decidable (WF fs) := by unfold WF; infer_instance

/-- The resolved flag of the unit is a boolean (the test of line 41 passes). -/
def flagIsBoolean (p : String × FunctionConfig) : Bool :=
  typeof (resolveToDeploy p.2) == "boolean"

/-- The unit is one the loop removes: its resolved flag is `false`. -/
def isExcluded (p : String × FunctionConfig) : Bool :=
  resolveToDeploy p.2 == .bool false

/-- The units the loop keeps, in enumeration order. -/
def keptUnits (fs : Registry) : Registry :=
  fs.filter (fun p => !isExcluded p)

/-- The units the loop removes, in enumeration order. -/
def excludedUnits (fs : Registry) : Registry :=
  fs.filter isExcluded

/-- The flag is written out as `false`: `toDeploy === false`. -/
def flagIsFalse (p : String × FunctionConfig) : Bool :=
  p.2.toDeploy == some (.bool false)

/-- The record has no `toDeploy` property. -/
def flagIsAbsent (p : String × FunctionConfig) : Bool :=
  p.2.toDeploy == none

/-- The record with `toDeploy: true` written into it when it lacks the property
and the unit is among those selected by `sel`; other records are left alone. -/
def setDefaultFlag (sel : String → Bool) (p : String × FunctionConfig) :
    String × FunctionConfig :=
  if sel p.1 && flagIsAbsent p then (p.1, ⟨some (.bool true), p.2.rest⟩) else p

/-- The verbose-channel messages of a log, in order. -/
def verboseMessages : List LogEvent → List String
  | [] => []
  | .verbose m :: l => m :: verboseMessages l
  | .notice _ :: l => verboseMessages l

/-- The notice-channel messages of a log, in order. -/
def noticeMessages : List LogEvent → List String
  | [] => []
  | .verbose _ :: l => noticeMessages l
  | .notice m :: l => m :: noticeMessages l

/-- The registry of the scenario `{a: {toDeploy: false}, b: {toDeploy: true}, c: {}}`. -/
def scenarioABC : Registry :=
  [("a", ⟨some (.bool false), []⟩), ("b", ⟨some (.bool true), []⟩), ("c", ⟨none, []⟩)]

/-- The registry `{func1: {}, func2: {toDeploy: true}, func3: {handler: 'handler.js'}}`
of the test suite. -/
def scenarioDefaults : Registry :=
  [("func1", ⟨none, []⟩), ("func2", ⟨some (.bool true), []⟩),
   ("func3", ⟨none, [("handler", .str "handler.js")]⟩)]

/-- The registry `{x: {toDeploy: 'yes'}}` of the failing scenario. -/
def scenarioInvalid : Registry :=
  [("x", ⟨some (.str "yes"), []⟩)]

/-- A registry whose first unit is removed before the second one fails:
`{a: {toDeploy: false}, b: {toDeploy: 'yes'}, c: {toDeploy: false}}`. -/
def scenarioPartial : Registry :=
  [("a", ⟨some (.bool false), []⟩), ("b", ⟨some (.str "yes"), []⟩),
   ("c", ⟨some (.bool false), []⟩)]

/-! ## Construction: schema declaration and hooks -/

/-- The schema of one property, `{ type: ... }`. -/
structure PropertySchema where
  type : String
  deriving DecidableEq, Repr

/-- The schema object passed to `defineFunctionProperties`: its `properties`
and its `required` list. -/
structure FunctionPropertiesSchema where
  properties : List (String × PropertySchema)
  required : List String
  deriving DecidableEq, Repr

/-- One call `configSchemaHandler.defineFunctionProperties(provider, schema)`. -/
structure SchemaDeclaration where
  provider : String
  schema : FunctionPropertiesSchema
  deriving DecidableEq, Repr

/-- A lifecycle hook: a function run against the plugin's bound state, here the
verbose option and the registry. -/
abbrev Hook := JSVal → Registry → Outcome

/-- The method `setupHooks` (lines 12-16): the object assigned to `this.hooks`,
as its list of entries. -/
def setupHooks : List (String × Hook) :=
  [("before:package:createDeploymentArtifacts",
    fun verbose fs => excludeNonDeployableFunctions verbose fs)]

/-- The method `setupFunctionProperties` (lines 18-25): the calls it makes on
the schema handler. -/
def setupFunctionProperties : List SchemaDeclaration :=
  [⟨"aws", ⟨[("toDeploy", ⟨"boolean"⟩)], []⟩⟩]

/-- The plugin after construction: the prefix, the schema declarations made on
the handler, and the hooks object. -/
structure Plugin where
  logPrefix : String
  declarations : List SchemaDeclaration
  hooks : List (String × Hook)

/-- The constructor (lines 2-10): sets the prefix, then runs
`setupFunctionProperties` and `setupHooks`. -/
def construct : Plugin :=
  ⟨"[serverless-selective-function-deploy]:", setupFunctionProperties, setupHooks⟩

/-- The property read `hooks[key]`, `none` standing for `undefined`. -/
def hookAt (plugin : Plugin) (key : String) : Option Hook :=
  plugin.hooks.lookup key

/-- The registry `{x: {toDeploy: undefined}}`: the flag is written out, with the
value `undefined`. -/
def scenarioUndefined : Registry :=
  [("x", ⟨some .undefined, []⟩)]

/-! ## The registry as an association list -/

theorem getFunction_append_cons (done rest : Registry) (n : String) (u : FunctionConfig)
    (hn : n ∉ done.map Prod.fst) :
    getFunction (done ++ (n, u) :: rest) n = some u := by
  induction done with
  | nil => simp [getFunction, List.lookup]
  | cons d done ih =>
    obtain ⟨k, v⟩ := d
    simp only [List.map_cons, List.mem_cons, not_or] at hn
    have hk : (n == k) = false := by simpa using hn.1
    simp only [getFunction, List.cons_append, List.lookup, hk]
    exact ih hn.2

theorem exclude_of_not_mem (fs : Registry) (n : String) (hn : n ∉ fs.map Prod.fst) :
    excludeFunctionFromDeployment fs n = fs := by
  unfold excludeFunctionFromDeployment
  rw [List.filter_eq_self]
  intro p hp
  have : p.1 ≠ n := by
    intro h
    exact hn (h ▸ List.mem_map_of_mem Prod.fst hp)
  simpa using this

theorem exclude_append_cons (done rest : Registry) (n : String) (u : FunctionConfig)
    (hd : n ∉ done.map Prod.fst) (hr : n ∉ rest.map Prod.fst) :
    excludeFunctionFromDeployment (done ++ (n, u) :: rest) n = done ++ rest := by
  have h1 := exclude_of_not_mem done n hd
  have h2 := exclude_of_not_mem rest n hr
  unfold excludeFunctionFromDeployment at *
  simp [List.filter_append, List.filter_cons, h1, h2]

/-- The three members of a well-formed registry split at a unit. -/
theorem WF_split (done rest : Registry) (n : String) (u : FunctionConfig)
    (h : WF (done ++ (n, u) :: rest)) :
    n ∉ done.map Prod.fst ∧ n ∉ rest.map Prod.fst ∧ WF ((done ++ [(n, u)]) ++ rest)
      ∧ WF (done ++ rest) := by
  unfold WF at *
  simp only [List.map_append, List.map_cons, List.map_nil, List.append_assoc,
    List.singleton_append] at *
  refine ⟨?_, ?_, h, ?_⟩
  · intro hm
    have := List.nodup_append.1 h
    exact this.2.2 hm (List.mem_cons_self _ _)
  · have := List.nodup_append.1 h
    exact (List.nodup_cons.1 this.2.1).1
  · have := List.nodup_append.1 h
    refine List.nodup_append.2 ⟨this.1, (List.nodup_cons.1 this.2.1).2, ?_⟩
    intro a ha hb
    exact this.2.2 ha (List.mem_cons_of_mem _ hb)

/-! ## One iteration of the loop -/

theorem flag_cases (u : FunctionConfig) (h : typeof (resolveToDeploy u) = "boolean") :
    resolveToDeploy u = .bool true ∨ resolveToDeploy u = .bool false := by
  cases hv : resolveToDeploy u with
  | bool b => cases b <;> simp
  | undefined => rw [hv] at h; exact absurd h (by decide)
  | null => rw [hv] at h; exact absurd h (by decide)
  | num n => rw [hv] at h; exact absurd h (by simp [typeof])
  | str s => rw [hv] at h; exact absurd h (by simp [typeof])

theorem classifyLoop_keep (done rest : Registry) (n : String) (u : FunctionConfig)
    (ns ex dep : List String) (hn : n ∉ done.map Prod.fst)
    (hu : resolveToDeploy u = .bool true) :
    classifyLoop (n :: ns) ⟨done ++ (n, u) :: rest, ex, dep⟩
      = classifyLoop ns ⟨(done ++ [(n, u)]) ++ rest, ex, dep ++ [n]⟩ := by
  simp [classifyLoop, getFunction_append_cons done rest n u hn, hu, typeof, truthy]

theorem classifyLoop_drop (done rest : Registry) (n : String) (u : FunctionConfig)
    (ns ex dep : List String) (hn : n ∉ done.map Prod.fst) (hr : n ∉ rest.map Prod.fst)
    (hu : resolveToDeploy u = .bool false) :
    classifyLoop (n :: ns) ⟨done ++ (n, u) :: rest, ex, dep⟩
      = classifyLoop ns ⟨done ++ rest, ex ++ [n], dep⟩ := by
  simp [classifyLoop, getFunction_append_cons done rest n u hn, hu, typeof, truthy,
    exclude_append_cons done rest n u hn hr]

theorem classifyLoop_throw (done rest : Registry) (n : String) (u : FunctionConfig)
    (ns ex dep : List String) (hn : n ∉ done.map Prod.fst)
    (hu : typeof (resolveToDeploy u) ≠ "boolean") :
    classifyLoop (n :: ns) ⟨done ++ (n, u) :: rest, ex, dep⟩
      = (some booleanError, ⟨done ++ (n, u) :: rest, ex, dep⟩) := by
  simp [classifyLoop, getFunction_append_cons done rest n u hn, hu]

/-! ## The whole loop -/

theorem classifyLoop_ok (todo : Registry) :
    ∀ (done : Registry) (ex dep : List String), WF (done ++ todo) →
      (∀ p ∈ todo, flagIsBoolean p = true) →
      classifyLoop (todo.map Prod.fst) ⟨done ++ todo, ex, dep⟩
        = (none, ⟨done ++ keptUnits todo, ex ++ (excludedUnits todo).map Prod.fst,
            dep ++ (keptUnits todo).map Prod.fst⟩) := by
  induction todo with
  | nil => intro done ex dep _ _; simp [classifyLoop, keptUnits, excludedUnits]
  | cons p todo ih =>
    intro done ex dep hwf hall
    obtain ⟨n, u⟩ := p
    obtain ⟨hd, hr, hwf1, hwf2⟩ := WF_split done todo n u hwf
    have hb : typeof (resolveToDeploy u) = "boolean" := by
      have := hall (n, u) (List.mem_cons_self _ _)
      simpa [flagIsBoolean] using this
    have hall2 : ∀ p ∈ todo, flagIsBoolean p = true :=
      fun p hp => hall p (List.mem_cons_of_mem _ hp)
    rcases flag_cases u hb with hu | hu
    · rw [List.map_cons, classifyLoop_keep done todo n u _ ex dep hd hu,
        ih (done ++ [(n, u)]) ex (dep ++ [n]) hwf1 hall2]
      simp [keptUnits, excludedUnits, List.filter_cons, isExcluded, hu]
    · rw [List.map_cons, classifyLoop_drop done todo n u _ ex dep hd hr hu,
        ih done (ex ++ [n]) dep hwf2 hall2]
      simp [keptUnits, excludedUnits, List.filter_cons, isExcluded, hu]

theorem classifyLoop_fail (pre : Registry) :
    ∀ (done : Registry) (ex dep : List String) (n : String) (u : FunctionConfig)
      (post : Registry), WF (done ++ (pre ++ (n, u) :: post)) →
      (∀ p ∈ pre, flagIsBoolean p = true) → flagIsBoolean (n, u) = false →
      classifyLoop ((pre ++ (n, u) :: post).map Prod.fst) ⟨done ++ (pre ++ (n, u) :: post), ex, dep⟩
        = (some booleanError, ⟨done ++ (keptUnits pre ++ (n, u) :: post),
            ex ++ (excludedUnits pre).map Prod.fst, dep ++ (keptUnits pre).map Prod.fst⟩) := by
  induction pre with
  | nil =>
    intro done ex dep n u post hwf _ hu
    obtain ⟨hd, -, -, -⟩ := WF_split done post n u hwf
    have hb : typeof (resolveToDeploy u) ≠ "boolean" := by
      simpa [flagIsBoolean] using hu
    simp only [List.nil_append, List.map_cons]
    rw [classifyLoop_throw done post n u _ ex dep hd hb]
    simp [keptUnits, excludedUnits]
  | cons p pre ih =>
    intro done ex dep n u post hwf hall hu
    obtain ⟨m, w⟩ := p
    obtain ⟨hd, hr, hwf1, hwf2⟩ := WF_split done (pre ++ (n, u) :: post) m w hwf
    have hb : typeof (resolveToDeploy w) = "boolean" := by
      have := hall (m, w) (List.mem_cons_self _ _)
      simpa [flagIsBoolean] using this
    have hall2 : ∀ p ∈ pre, flagIsBoolean p = true :=
      fun p hp => hall p (List.mem_cons_of_mem _ hp)
    rcases flag_cases w hb with hw | hw
    · rw [List.cons_append, List.map_cons, classifyLoop_keep done _ m w _ ex dep hd hw,
        ih (done ++ [(m, w)]) ex (dep ++ [m]) n u post hwf1 hall2 hu]
      simp [keptUnits, excludedUnits, List.filter_cons, isExcluded, hw]
    · rw [List.cons_append, List.map_cons, classifyLoop_drop done _ m w _ ex dep hd hr hw,
        ih done (ex ++ [m]) dep n u post hwf2 hall2 hu]
      simp [keptUnits, excludedUnits, List.filter_cons, isExcluded, hw]

/-- Either every unit passes the test of line 41, or the registry splits at the
first unit that fails it. -/
theorem first_invalid (fs : Registry) :
    (∀ p ∈ fs, flagIsBoolean p = true) ∨
    ∃ (pre : Registry) (n : String) (u : FunctionConfig) (post : Registry),
      fs = pre ++ (n, u) :: post ∧ (∀ p ∈ pre, flagIsBoolean p = true) ∧
        flagIsBoolean (n, u) = false := by
  induction fs with
  | nil => left; simp
  | cons p fs ih =>
    cases hp : flagIsBoolean p with
    | false => right; exact ⟨[], p.1, p.2, fs, rfl, by simp, hp⟩
    | true =>
      rcases ih with h | ⟨pre, n, u, post, he, hpre, hu⟩
      · left
        intro q hq
        rcases List.mem_cons.1 hq with rfl | hq
        · exact hp
        · exact h q hq
      · right
        refine ⟨p :: pre, n, u, post, by rw [he]; rfl, ?_, hu⟩
        intro q hq
        rcases List.mem_cons.1 hq with rfl | hq
        · exact hp
        · exact hpre q hq

theorem length_excluded_add_kept (fs : Registry) :
    (excludedUnits fs).length + (keptUnits fs).length = fs.length := by
  induction fs with
  | nil => rfl
  | cons p fs ih =>
    cases hp : isExcluded p <;>
      simp [excludedUnits, keptUnits, List.filter_cons, hp] at ih ⊢ <;> omega

/-- A successful run on a non-empty registry, in closed form. -/
theorem run_ok (verbose : JSVal) (fs : Registry) (hne : fs ≠ []) (hwf : WF fs)
    (hall : ∀ p ∈ fs, flagIsBoolean p = true) :
    excludeNonDeployableFunctions verbose fs
      = ⟨none, keptUnits fs,
          verboseReport ((excludedUnits fs).map Prod.fst) ((keptUnits fs).map Prod.fst)
            ++ [.notice (summaryLog (excludedUnits fs).length (keptUnits fs).length fs.length
                  ++ verbosePrompt verbose)]⟩ := by
  have hloop := classifyLoop_ok fs [] [] [] (by simpa using hwf) hall
  simp only [List.nil_append] at hloop
  have hlen : fs.length ≠ 0 := by
    intro h; exact hne (List.length_eq_zero.1 h)
  have hsum := length_excluded_add_kept fs
  have hguard : (excludedUnits fs).length > 0 ∨ (keptUnits fs).length > 0 := by omega
  simp only [excludeNonDeployableFunctions, getAllFunctions, List.length_map, hloop]
  simp [hlen, hguard]

/-- A failing run, in closed form. -/
theorem run_fail (verbose : JSVal) (pre post : Registry) (n : String) (u : FunctionConfig)
    (hwf : WF (pre ++ (n, u) :: post)) (hpre : ∀ p ∈ pre, flagIsBoolean p = true)
    (hu : flagIsBoolean (n, u) = false) :
    excludeNonDeployableFunctions verbose (pre ++ (n, u) :: post)
      = ⟨some booleanError, keptUnits pre ++ (n, u) :: post, []⟩ := by
  have hloop := classifyLoop_fail pre [] [] [] n u post (by simpa using hwf) hpre hu
  simp only [List.nil_append] at hloop
  simp only [excludeNonDeployableFunctions, getAllFunctions, hloop]
  simp

/-! ## Facts about flags -/

theorem isExcluded_eq_flagIsFalse (p : String × FunctionConfig) :
    isExcluded p = flagIsFalse p := by
  obtain ⟨n, t, r⟩ := p
  cases t with
  | none => simp [isExcluded, flagIsFalse, resolveToDeploy]
  | some v => cases v <;> simp [isExcluded, flagIsFalse, resolveToDeploy]

theorem keptUnits_eq (fs : Registry) : keptUnits fs = fs.filter (fun p => !flagIsFalse p) := by
  unfold keptUnits
  congr 1
  funext p
  rw [isExcluded_eq_flagIsFalse]

theorem excludedUnits_eq (fs : Registry) : excludedUnits fs = fs.filter flagIsFalse := by
  unfold excludedUnits
  congr 1
  funext p
  rw [isExcluded_eq_flagIsFalse]

theorem flagIsBoolean_of_excluded (p : String × FunctionConfig) (h : isExcluded p = true) :
    flagIsBoolean p = true := by
  have : resolveToDeploy p.2 = .bool false := by simpa [isExcluded] using h
  simp [flagIsBoolean, this, typeof]

/-- A run that returns normally met no invalid flag. -/
theorem all_boolean_of_ok (verbose : JSVal) (fs : Registry) (hwf : WF fs)
    (hok : (excludeNonDeployableFunctions verbose fs).error = none) :
    ∀ p ∈ fs, flagIsBoolean p = true := by
  rcases first_invalid fs with h | ⟨pre, n, u, post, he, hpre, hu⟩
  · exact h
  · subst he
    rw [run_fail verbose pre post n u hwf hpre hu] at hok
    exact absurd hok (by simp)

theorem run_empty (verbose : JSVal) :
    excludeNonDeployableFunctions verbose [] = ⟨none, [], []⟩ := by
  simp [excludeNonDeployableFunctions, getAllFunctions]

theorem noticeMessages_report (ex dep : List String) (m : String) :
    noticeMessages (verboseReport ex dep ++ [.notice m]) = [m] := by
  simp [verboseReport, noticeMessages]

theorem verboseMessages_report (ex dep : List String) (m : String) :
    verboseMessages (verboseReport ex dep ++ [.notice m])
      = [logPrefix ++ " Pre-deployment function summary:",
         logPrefix ++ " Excluded " ++ toString ex.length ++ " function(s): " ++ joinNames ex,
         logPrefix ++ " Included " ++ toString dep.length ++ " function(s): " ++ joinNames dep] := by
  simp [verboseReport, verboseMessages]

/-! ## The claims -/

/-- C1: on a registry in which every `toDeploy` is absent or a boolean, the keys
left by `excludeNonDeployableFunctions` are the original names whose `toDeploy`
is absent or `true`, in order: each unit with `toDeploy === false` is gone and
each other unit is still there. -/
theorem C1_surviving_keys (verbose : JSVal) (fs : Registry) (hwf : WF fs)
    (hflags : ∀ p ∈ fs, p.2.toDeploy = none ∨ ∃ b, p.2.toDeploy = some (.bool b)) :
    getAllFunctions (excludeNonDeployableFunctions verbose fs).functions
        = getAllFunctions (fs.filter (fun p =>
            decide (p.2.toDeploy = none ∨ p.2.toDeploy = some (.bool true)))) ∧
      (∀ p ∈ fs, p.2.toDeploy = some (.bool false) →
        p.1 ∉ getAllFunctions (excludeNonDeployableFunctions verbose fs).functions) ∧
      (∀ p ∈ fs, p.2.toDeploy ≠ some (.bool false) →
        p ∈ (excludeNonDeployableFunctions verbose fs).functions) := by
  have hall : ∀ p ∈ fs, flagIsBoolean p = true := by
    intro p hp
    rcases hflags p hp with h | ⟨b, h⟩ <;> simp [flagIsBoolean, resolveToDeploy, h, typeof]
  have hfun : (excludeNonDeployableFunctions verbose fs).functions = keptUnits fs := by
    by_cases hne : fs = []
    · subst hne; rw [run_empty]; rfl
    · rw [run_ok verbose fs hne hwf hall]
  rw [hfun, keptUnits_eq]
  refine ⟨?_, ?_, ?_⟩
  · congr 1
    apply List.filter_congr
    intro p hp
    rcases hflags p hp with h | ⟨b, h⟩
    · simp [flagIsFalse, h]
    · cases b <;> simp [flagIsFalse, h]
  · intro p hp hf hmem
    obtain ⟨q, hq, hqp⟩ := List.mem_map.1 hmem
    have hqf := List.mem_filter.1 hq
    have hqfs : q ∈ fs := hqf.1
    -- two units of a well-formed registry with one name are one unit
    have : q = p := by
      have hinj := List.inj_on_of_nodup_map hwf
      exact hinj hqfs hp hqp
    subst this
    simp [flagIsFalse, hf] at hqf
  · intro p hp hf
    exact List.mem_filter.2 ⟨hp, by simpa [flagIsFalse] using hf⟩

/-- C1 at the registry `{a: {toDeploy: false}, b: {toDeploy: true}, c: {}}`. -/
theorem C1_surviving_keys_witness :
    getAllFunctions (excludeNonDeployableFunctions (.bool false) scenarioABC).functions
        = getAllFunctions (scenarioABC.filter (fun p =>
            decide (p.2.toDeploy = none ∨ p.2.toDeploy = some (.bool true)))) ∧
      (∀ p ∈ scenarioABC, p.2.toDeploy = some (.bool false) →
        p.1 ∉ getAllFunctions (excludeNonDeployableFunctions (.bool false) scenarioABC).functions) ∧
      (∀ p ∈ scenarioABC, p.2.toDeploy ≠ some (.bool false) →
        p ∈ (excludeNonDeployableFunctions (.bool false) scenarioABC).functions) :=
  C1_surviving_keys (.bool false) scenarioABC (by decide) (by decide)

/-- The run throws the error of line 42 exactly when the registry is non-empty
and some unit fails the test of line 41; otherwise it returns normally. -/
theorem throws_iff_some_invalid (verbose : JSVal) (fs : Registry) (hwf : WF fs) :
    ((excludeNonDeployableFunctions verbose fs).error = some "toDeploy property must be a boolean"
        ↔ fs ≠ [] ∧ ∃ p ∈ fs, typeof (resolveToDeploy p.2) ≠ "boolean") ∧
      (¬ (fs ≠ [] ∧ ∃ p ∈ fs, typeof (resolveToDeploy p.2) ≠ "boolean") →
        (excludeNonDeployableFunctions verbose fs).error = none) := by
  rcases first_invalid fs with h | ⟨pre, n, u, post, he, hpre, hu⟩
  · have hnone : (excludeNonDeployableFunctions verbose fs).error = none := by
      by_cases hne : fs = []
      · subst hne; rw [run_empty]
      · rw [run_ok verbose fs hne hwf h]
    have hno : ¬ (fs ≠ [] ∧ ∃ p ∈ fs, typeof (resolveToDeploy p.2) ≠ "boolean") := by
      rintro ⟨-, p, hp, hb⟩
      have := h p hp
      simp [flagIsBoolean] at this
      exact hb this
    refine ⟨⟨fun hthrow => ?_, fun hex => absurd hex hno⟩, fun _ => hnone⟩
    rw [hnone] at hthrow
    exact absurd hthrow (by simp)
  · subst he
    have hsome := run_fail verbose pre post n u hwf hpre hu
    have hyes : pre ++ (n, u) :: post ≠ [] ∧
        ∃ p ∈ pre ++ (n, u) :: post, typeof (resolveToDeploy p.2) ≠ "boolean" := by
      refine ⟨by simp, (n, u), by simp, ?_⟩
      simpa [flagIsBoolean] using hu
    refine ⟨⟨fun _ => hyes, fun _ => ?_⟩, fun hno => absurd hyes hno⟩
    rw [hsome]
    rfl

/-- The value bound on line 39 is not a boolean exactly when the property is
there with a value that is neither `undefined` nor a boolean. -/
theorem resolved_not_boolean_iff (u : FunctionConfig) :
    typeof (resolveToDeploy u) ≠ "boolean"
      ↔ ∃ v, u.toDeploy = some v ∧ v ≠ .undefined ∧ typeof v ≠ "boolean" := by
  obtain ⟨t, r⟩ := u
  cases t with
  | none => simp [resolveToDeploy, typeof]
  | some v => cases v <;> simp [resolveToDeploy, typeof]

/-- C2, as stated, fails: in `{x: {toDeploy: undefined}}` the registry is
non-empty and the flag of `x`, read as "its `toDeploy` value if present,
otherwise `true`", is `undefined`, which is not a boolean; yet the call returns
normally. -/
theorem C2_present_undefined_counterexample :
    WF scenarioUndefined ∧
      (scenarioUndefined ≠ [] ∧
        ∃ p ∈ scenarioUndefined, typeof (p.2.toDeploy.getD (.bool true)) ≠ "boolean") ∧
      (excludeNonDeployableFunctions (.bool false) scenarioUndefined).error = none ∧
      ¬ ((excludeNonDeployableFunctions (.bool false) scenarioUndefined).error
            = some "toDeploy property must be a boolean"
          ↔ (scenarioUndefined ≠ [] ∧
              ∃ p ∈ scenarioUndefined,
                typeof (p.2.toDeploy.getD (.bool true)) ≠ "boolean")) := by
  have hrhs : scenarioUndefined ≠ [] ∧
      ∃ p ∈ scenarioUndefined, typeof (p.2.toDeploy.getD (.bool true)) ≠ "boolean" :=
    ⟨by decide, ("x", ⟨some .undefined, []⟩), by decide, by decide⟩
  have hnone : (excludeNonDeployableFunctions (.bool false) scenarioUndefined).error = none := by
    decide
  refine ⟨by decide, hrhs, hnone, ?_⟩
  intro hiff
  have := hiff.2 hrhs
  rw [hnone] at this
  exact absurd this (by simp)

/-- C2, amended: `excludeNonDeployableFunctions` throws the error whose message is
exactly 'toDeploy property must be a boolean' if and only if the registry is
non-empty and some unit's resolved flag (its `toDeploy` value if present and not
`undefined`, otherwise `true`) is not a boolean; in every other case it returns
normally. The resolved flag so described is the value line 39 binds. -/
theorem C2_error_iff_invalid_flag (verbose : JSVal) (fs : Registry) (hwf : WF fs) :
    ((excludeNonDeployableFunctions verbose fs).error = some "toDeploy property must be a boolean"
        ↔ fs ≠ [] ∧ ∃ p ∈ fs, ∃ v, p.2.toDeploy = some v ∧ v ≠ .undefined
            ∧ typeof v ≠ "boolean") ∧
      (¬ (fs ≠ [] ∧ ∃ p ∈ fs, ∃ v, p.2.toDeploy = some v ∧ v ≠ .undefined
            ∧ typeof v ≠ "boolean") →
        (excludeNonDeployableFunctions verbose fs).error = none) ∧
      ((excludeNonDeployableFunctions verbose fs).error = some "toDeploy property must be a boolean"
        ↔ fs ≠ [] ∧ ∃ p ∈ fs, typeof (resolveToDeploy p.2) ≠ "boolean") := by
  obtain ⟨hiff, hnone⟩ := throws_iff_some_invalid verbose fs hwf
  have heq : (fs ≠ [] ∧ ∃ p ∈ fs, ∃ v, p.2.toDeploy = some v ∧ v ≠ .undefined
        ∧ typeof v ≠ "boolean")
      ↔ (fs ≠ [] ∧ ∃ p ∈ fs, typeof (resolveToDeploy p.2) ≠ "boolean") := by
    constructor
    · rintro ⟨hne, p, hp, hv⟩
      exact ⟨hne, p, hp, (resolved_not_boolean_iff p.2).2 hv⟩
    · rintro ⟨hne, p, hp, hb⟩
      exact ⟨hne, p, hp, (resolved_not_boolean_iff p.2).1 hb⟩
  exact ⟨hiff.trans heq.symm, fun hno => hnone (fun h => hno (heq.2 h)), hiff⟩

/-- C2, amended, at the registry `{func1: {toDeploy: 'yes'}}` of the test suite:
the error is thrown. -/
theorem C2_error_iff_invalid_flag_witness :
    WF [("func1", ⟨some (.str "yes"), []⟩)] ∧
      (excludeNonDeployableFunctions (.bool false) [("func1", ⟨some (.str "yes"), []⟩)]).error
        = some "toDeploy property must be a boolean" :=
  ⟨by decide,
    (C2_error_iff_invalid_flag (.bool false) [("func1", ⟨some (.str "yes"), []⟩)]
      (by decide)).1.2
      ⟨by decide, ("func1", ⟨some (.str "yes"), []⟩), by decide, .str "yes", rfl,
        by decide, by decide⟩⟩

/-! ### Filling in the default flag -/

theorem setDefaultFlag_fst (sel : String → Bool) (p : String × FunctionConfig) :
    (setDefaultFlag sel p).1 = p.1 := by
  unfold setDefaultFlag
  split <;> rfl

theorem setDefaultFlag_resolve (sel : String → Bool) (p : String × FunctionConfig) :
    resolveToDeploy (setDefaultFlag sel p).2 = resolveToDeploy p.2 := by
  unfold setDefaultFlag
  split
  · rename_i h
    have ha : p.2.toDeploy = none := by
      have hb : flagIsAbsent p = true := by
        cases hs : sel p.1 <;> simp [hs] at h
        exact h
      simpa [flagIsAbsent] using hb
    simp [resolveToDeploy, ha]
  · rfl

theorem map_fst_setDefaultFlag (sel : String → Bool) (fs : Registry) :
    (fs.map (setDefaultFlag sel)).map Prod.fst = fs.map Prod.fst := by
  rw [List.map_map]
  apply List.map_congr_left
  intro p _
  exact setDefaultFlag_fst sel p

theorem isExcluded_setDefaultFlag (sel : String → Bool) (p : String × FunctionConfig) :
    isExcluded (setDefaultFlag sel p) = isExcluded p := by
  simp [isExcluded, setDefaultFlag_resolve]

theorem keptUnits_setDefaultFlag (sel : String → Bool) (fs : Registry) :
    keptUnits (fs.map (setDefaultFlag sel)) = (keptUnits fs).map (setDefaultFlag sel) := by
  unfold keptUnits
  rw [List.filter_map]
  congr 1
  apply List.filter_congr
  intro p _
  simp [isExcluded_setDefaultFlag]

theorem excludedUnits_setDefaultFlag (sel : String → Bool) (fs : Registry) :
    excludedUnits (fs.map (setDefaultFlag sel)) = (excludedUnits fs).map (setDefaultFlag sel) := by
  unfold excludedUnits
  rw [List.filter_map]
  congr 1
  apply List.filter_congr
  intro p _
  simp [isExcluded_setDefaultFlag]

/-- A unit whose resolved flag is not `false` is in the registry after every
run, failing ones included. -/
theorem unit_survives (verbose : JSVal) (fs : Registry) (hwf : WF fs)
    (p : String × FunctionConfig) (hp : p ∈ fs) (hk : isExcluded p = false) :
    p ∈ (excludeNonDeployableFunctions verbose fs).functions := by
  rcases first_invalid fs with h | ⟨pre, n, u, post, he, hpre, hu⟩
  · by_cases hne : fs = []
    · subst hne; simp at hp
    · rw [run_ok verbose fs hne hwf h]
      exact List.mem_filter.2 ⟨hp, by simp [hk]⟩
  · subst he
    rw [run_fail verbose pre post n u hwf hpre hu]
    rcases List.mem_append.1 hp with hp | hp
    · exact List.mem_append_left _ (List.mem_filter.2 ⟨hp, by simp [hk]⟩)
    · exact List.mem_append_right _ hp

/-- Filling in the default flag changes neither the error, nor the surviving
names, nor the messages. -/
theorem run_setDefaultFlag (verbose : JSVal) (sel : String → Bool) (fs : Registry)
    (hwf : WF fs) :
    (excludeNonDeployableFunctions verbose (fs.map (setDefaultFlag sel))).error
        = (excludeNonDeployableFunctions verbose fs).error ∧
      getAllFunctions (excludeNonDeployableFunctions verbose (fs.map (setDefaultFlag sel))).functions
        = getAllFunctions (excludeNonDeployableFunctions verbose fs).functions ∧
      (excludeNonDeployableFunctions verbose (fs.map (setDefaultFlag sel))).log
        = (excludeNonDeployableFunctions verbose fs).log := by
  have hwf2 : ∀ l : Registry, WF l → WF (l.map (setDefaultFlag sel)) := by
    intro l hl
    unfold WF at *
    rw [map_fst_setDefaultFlag]
    exact hl
  have hbool : ∀ q : String × FunctionConfig,
      flagIsBoolean (setDefaultFlag sel q) = flagIsBoolean q := by
    intro q
    simp [flagIsBoolean, setDefaultFlag_resolve]
  rcases first_invalid fs with h | ⟨pre, n, u, post, he, hpre, hu⟩
  · by_cases hne : fs = []
    · subst hne
      simp
    · have hne2 : fs.map (setDefaultFlag sel) ≠ [] := by simpa using hne
      have h2 : ∀ q ∈ fs.map (setDefaultFlag sel), flagIsBoolean q = true := by
        intro q hq
        obtain ⟨r, hr, rfl⟩ := List.mem_map.1 hq
        rw [hbool]
        exact h r hr
      rw [run_ok verbose fs hne hwf h, run_ok verbose _ hne2 (hwf2 fs hwf) h2]
      simp only [keptUnits_setDefaultFlag, excludedUnits_setDefaultFlag, getAllFunctions,
        map_fst_setDefaultFlag, List.length_map]
      exact ⟨trivial, trivial, trivial⟩
  · subst he
    have hmap : (pre ++ (n, u) :: post).map (setDefaultFlag sel)
        = pre.map (setDefaultFlag sel)
          ++ ((setDefaultFlag sel (n, u)).1, (setDefaultFlag sel (n, u)).2)
            :: post.map (setDefaultFlag sel) := by
      simp
    have hpre2 : ∀ q ∈ pre.map (setDefaultFlag sel), flagIsBoolean q = true := by
      intro q hq
      obtain ⟨r, hr, rfl⟩ := List.mem_map.1 hq
      rw [hbool]
      exact hpre r hr
    have hu2 : flagIsBoolean ((setDefaultFlag sel (n, u)).1, (setDefaultFlag sel (n, u)).2)
        = false := by
      have := hbool (n, u)
      rw [hu] at this
      exact this
    have hwf3 := hwf2 _ hwf
    rw [hmap] at hwf3
    rw [run_fail verbose pre post n u hwf hpre hu, hmap,
      run_fail verbose _ _ _ _ hwf3 hpre2 hu2]
    refine ⟨rfl, ?_, rfl⟩
    simp only [getAllFunctions, keptUnits_setDefaultFlag, List.map_append, List.map_cons,
      map_fst_setDefaultFlag, setDefaultFlag_fst]

/-- C3: a unit without `toDeploy` is treated as one with `toDeploy: true`: writing
`toDeploy: true` into any of the records that lack the property leaves the
outcome as it was (same error or none, same surviving names, same verbose and
notice messages), and a unit without the flag is never removed. -/
theorem C3_absent_flag_is_true (verbose : JSVal) (sel : String → Bool) (fs : Registry)
    (hwf : WF fs) :
    (excludeNonDeployableFunctions verbose (fs.map (setDefaultFlag sel))).error
        = (excludeNonDeployableFunctions verbose fs).error ∧
      getAllFunctions (excludeNonDeployableFunctions verbose (fs.map (setDefaultFlag sel))).functions
        = getAllFunctions (excludeNonDeployableFunctions verbose fs).functions ∧
      (excludeNonDeployableFunctions verbose (fs.map (setDefaultFlag sel))).log
        = (excludeNonDeployableFunctions verbose fs).log ∧
      (∀ p ∈ fs, p.2.toDeploy = none →
        p ∈ (excludeNonDeployableFunctions verbose fs).functions) := by
  obtain ⟨h1, h2, h3⟩ := run_setDefaultFlag verbose sel fs hwf
  refine ⟨h1, h2, h3, ?_⟩
  intro p hp hnone
  apply unit_survives verbose fs hwf p hp
  simp [isExcluded, resolveToDeploy, hnone]

/-- C3 at the registry of the default-flag test, with `toDeploy: true` written
into `func1`. -/
theorem C3_absent_flag_is_true_witness :
    WF scenarioDefaults ∧
      (scenarioDefaults.map (setDefaultFlag (fun n => n == "func1")))
        = [("func1", ⟨some (.bool true), []⟩), ("func2", ⟨some (.bool true), []⟩),
           ("func3", ⟨none, [("handler", .str "handler.js")]⟩)] ∧
      (excludeNonDeployableFunctions (.bool false)
          (scenarioDefaults.map (setDefaultFlag (fun n => n == "func1")))).log
        = (excludeNonDeployableFunctions (.bool false) scenarioDefaults).log ∧
      (∀ p ∈ scenarioDefaults, p.2.toDeploy = none →
        p ∈ (excludeNonDeployableFunctions (.bool false) scenarioDefaults).functions) :=
  ⟨by decide, by decide,
    (C3_absent_flag_is_true (.bool false) (fun n => n == "func1") scenarioDefaults
      (by decide)).2.2.1,
    (C3_absent_flag_is_true (.bool false) (fun n => n == "func1") scenarioDefaults
      (by decide)).2.2.2⟩

/-- C4: a run on a non-empty registry that completes without error emits exactly
one notice message; its excluded count is the number of units with
`toDeploy === false`, its kept count the number of units left in the registry,
its total the number of names enumerated on line 28, and the first two add up
to the third. -/
theorem C4_notice_counts (verbose : JSVal) (fs : Registry) (hne : fs ≠ []) (hwf : WF fs)
    (hok : (excludeNonDeployableFunctions verbose fs).error = none) :
    noticeMessages (excludeNonDeployableFunctions verbose fs).log
        = [summaryLog (fs.filter flagIsFalse).length
            (excludeNonDeployableFunctions verbose fs).functions.length
            (getAllFunctions fs).length ++ verbosePrompt verbose] ∧
      (fs.filter flagIsFalse).length
          + (excludeNonDeployableFunctions verbose fs).functions.length
        = (getAllFunctions fs).length := by
  have hall := all_boolean_of_ok verbose fs hwf hok
  have hsum := length_excluded_add_kept fs
  rw [run_ok verbose fs hne hwf hall]
  simp only [noticeMessages_report, getAllFunctions, List.length_map]
  rw [excludedUnits_eq] at hsum ⊢
  exact ⟨rfl, hsum⟩

/-- C4 at the registry `{a: {toDeploy: false}, b: {toDeploy: true}, c: {}}`:
one notice message, with the counts 1, 2 and 3. -/
theorem C4_notice_counts_witness :
    scenarioABC ≠ [] ∧ WF scenarioABC ∧
      noticeMessages (excludeNonDeployableFunctions (.bool true) scenarioABC).log
        = [summaryLog 1 2 3 ++ verbosePrompt (.bool true)] ∧
      1 + 2 = 3 :=
  ⟨by decide, by decide,
    (C4_notice_counts (.bool true) scenarioABC (by decide) (by decide) (by decide)).1,
    (C4_notice_counts (.bool true) scenarioABC (by decide) (by decide) (by decide)).2⟩

/-- C5: on an empty registry (`getAllFunctions` returns no name) the call returns
without error, leaves the registry as it is and emits no verbose and no notice
message, whatever the verbose option. -/
theorem C5_empty_registry (verbose : JSVal) (fs : Registry) (h : getAllFunctions fs = []) :
    (excludeNonDeployableFunctions verbose fs).error = none ∧
      (excludeNonDeployableFunctions verbose fs).functions = fs ∧
      verboseMessages (excludeNonDeployableFunctions verbose fs).log = [] ∧
      noticeMessages (excludeNonDeployableFunctions verbose fs).log = [] ∧
      (excludeNonDeployableFunctions verbose fs).log = [] := by
  have hfs : fs = [] := by simpa [getAllFunctions] using h
  subst hfs
  rw [run_empty]
  exact ⟨rfl, rfl, rfl, rfl, rfl⟩

/-- C5 at the empty registry, with the verbose option on. -/
theorem C5_empty_registry_witness :
    getAllFunctions [] = [] ∧
      (excludeNonDeployableFunctions (.bool true) []).error = none ∧
      (excludeNonDeployableFunctions (.bool true) []).functions = [] ∧
      verboseMessages (excludeNonDeployableFunctions (.bool true) []).log = [] ∧
      noticeMessages (excludeNonDeployableFunctions (.bool true) []).log = [] ∧
      (excludeNonDeployableFunctions (.bool true) []).log = [] :=
  ⟨rfl, C5_empty_registry (.bool true) [] rfl⟩

/-- C6: when the call fails, the registry splits at the first unit `u` whose
resolved flag is not a boolean; the registry afterwards is the units before `u`
without those with `toDeploy === false`, then `u`, then every unit after `u`
untouched, and no message has been emitted. For `{x: {toDeploy: 'yes'}}` the
error is raised and the registry is as before. -/
theorem C6_fail_fast_no_rollback (verbose : JSVal) (fs : Registry) (hwf : WF fs)
    (hfail : (excludeNonDeployableFunctions verbose fs).error ≠ none) :
    (∃ (pre : Registry) (n : String) (u : FunctionConfig) (post : Registry),
        fs = pre ++ (n, u) :: post ∧
        (∀ p ∈ pre, typeof (resolveToDeploy p.2) = "boolean") ∧
        typeof (resolveToDeploy u) ≠ "boolean" ∧
        (excludeNonDeployableFunctions verbose fs).error = some booleanError ∧
        (excludeNonDeployableFunctions verbose fs).functions
          = pre.filter (fun p => !flagIsFalse p) ++ (n, u) :: post ∧
        (excludeNonDeployableFunctions verbose fs).log = []) ∧
      excludeNonDeployableFunctions verbose scenarioInvalid
        = ⟨some booleanError, scenarioInvalid, []⟩ := by
  constructor
  · rcases first_invalid fs with h | ⟨pre, n, u, post, he, hpre, hu⟩
    · exfalso
      apply hfail
      by_cases hne : fs = []
      · subst hne; rw [run_empty]
      · rw [run_ok verbose fs hne hwf h]
    · subst he
      refine ⟨pre, n, u, post, rfl, ?_, ?_, ?_⟩
      · intro p hp
        simpa [flagIsBoolean] using hpre p hp
      · simpa [flagIsBoolean] using hu
      · rw [run_fail verbose pre post n u hwf hpre hu, keptUnits_eq]
        exact ⟨rfl, rfl, rfl⟩
  · exact run_fail verbose [] [] "x" ⟨some (.str "yes"), []⟩ (by decide) (by simp)
      (by decide)

/-- C6 at `{a: {toDeploy: false}, b: {toDeploy: 'yes'}, c: {toDeploy: false}}`:
the run fails at `b`, `a` has been removed and `c` is still there. -/
theorem C6_fail_fast_no_rollback_witness :
    WF scenarioPartial ∧
      (excludeNonDeployableFunctions (.bool false) scenarioPartial).error ≠ none ∧
      (excludeNonDeployableFunctions (.bool false) scenarioPartial).functions
        = [("b", ⟨some (.str "yes"), []⟩), ("c", ⟨some (.bool false), []⟩)] ∧
      excludeNonDeployableFunctions (.bool false) scenarioInvalid
        = ⟨some booleanError, scenarioInvalid, []⟩ :=
  ⟨by decide, by decide, by decide,
    (C6_fail_fast_no_rollback (.bool false) scenarioPartial (by decide) (by decide)).2⟩

/-! ### The hint at the end of the notice message -/

/-- The summary sentence of line 59 does not end with the hint of line 60: it
ends in `).` where the hint ends in `d.`. -/
theorem summaryLog_no_hint (e k t : Nat) :
    ¬ (verboseHint.data <:+ (summaryLog e k t).data) := by
  intro h
  have hs : (summaryLog e k t).data
      = (logPrefix ++ " Excluded " ++ toString e
          ++ " function(s) from deployment, deploying " ++ toString k
          ++ " of " ++ toString t ++ " function(s").data ++ [')', '.'] := by
    simp only [summaryLog, String.data_append]
    simp
  have hh : verboseHint.data = " For more details, use --verbose comman".data ++ ['d', '.'] := by
    decide
  rw [hs, hh] at h
  have h2 := List.reverse_prefix.2 h
  simp only [List.reverse_append, List.reverse_cons, List.reverse_nil, List.nil_append,
    List.singleton_append, List.cons_append] at h2
  obtain ⟨r, hr⟩ := h2
  simp only [List.cons_append, List.cons.injEq] at hr
  exact absurd hr.2.1 (by decide)

/-- With the hint appended, the notice message ends with it. -/
theorem hint_suffix (m : String) : verboseHint.data <:+ (m ++ verboseHint).data := by
  rw [String.data_append]
  exact List.suffix_append _ _

/-- C7: on a non-empty registry on which the call completes without error, the
one notice message ends with the hint ' For more details, use --verbose command.'
if and only if `options.verbose` is falsy; when `options.verbose` is truthy the
message is the summary sentence with nothing appended. -/
theorem C7_hint_iff_not_verbose (verbose : JSVal) (fs : Registry) (hne : fs ≠ [])
    (hwf : WF fs) (hok : (excludeNonDeployableFunctions verbose fs).error = none) :
    ∃ msg : String,
      noticeMessages (excludeNonDeployableFunctions verbose fs).log = [msg] ∧
      (" For more details, use --verbose command.".data <:+ msg.data
        ↔ truthy verbose = false) ∧
      (truthy verbose = true →
        msg = summaryLog (fs.filter flagIsFalse).length
          (excludeNonDeployableFunctions verbose fs).functions.length
          (getAllFunctions fs).length) := by
  have hall := all_boolean_of_ok verbose fs hwf hok
  rw [run_ok verbose fs hne hwf hall]
  refine ⟨_, noticeMessages_report _ _ _, ?_, ?_⟩
  · cases hv : truthy verbose with
    | false =>
      have hp : verbosePrompt verbose = verboseHint := by simp [verbosePrompt, hv]
      rw [hp]
      exact ⟨fun _ => rfl, fun _ => hint_suffix _⟩
    | true =>
      have hp : verbosePrompt verbose = "" := by simp [verbosePrompt, hv]
      rw [hp, String.append_empty]
      exact ⟨fun h => absurd h (summaryLog_no_hint _ _ _), fun h => absurd h (by decide)⟩
  · intro hv
    have hp : verbosePrompt verbose = "" := by simp [verbosePrompt, hv]
    rw [hp, String.append_empty, excludedUnits_eq]
    simp only [getAllFunctions, List.length_map]

/-- C7 at the registry `{func1: {toDeploy: false}}` of the test suite, with the
verbose option on: the notice message is the bare summary sentence. -/
theorem C7_hint_iff_not_verbose_witness :
    ∃ msg : String,
      noticeMessages (excludeNonDeployableFunctions (.bool true)
        [("func1", ⟨some (.bool false), []⟩)]).log = [msg] ∧
      (" For more details, use --verbose command.".data <:+ msg.data
        ↔ truthy (.bool true) = false) ∧
      (truthy (.bool true) = true →
        msg = summaryLog ([("func1", (⟨some (.bool false), []⟩ : FunctionConfig))].filter
            flagIsFalse).length
          (excludeNonDeployableFunctions (.bool true)
            [("func1", ⟨some (.bool false), []⟩)]).functions.length
          (getAllFunctions [("func1", ⟨some (.bool false), []⟩)]).length) :=
  C7_hint_iff_not_verbose (.bool true) [("func1", ⟨some (.bool false), []⟩)]
    (by decide) (by decide) (by decide)

/-! ### A second pass over the filtered registry -/

theorem WF_keptUnits (fs : Registry) (hwf : WF fs) : WF (keptUnits fs) := by
  unfold WF at *
  exact List.Nodup.sublist (List.Sublist.map _ (List.filter_sublist fs)) hwf

theorem WF_excludedUnits (fs : Registry) (hwf : WF fs) : WF (excludedUnits fs) := by
  unfold WF at *
  exact List.Nodup.sublist (List.Sublist.map _ (List.filter_sublist fs)) hwf

theorem keptUnits_idem (fs : Registry) : keptUnits (keptUnits fs) = keptUnits fs := by
  unfold keptUnits
  rw [List.filter_filter]
  congr 1
  funext p
  simp

theorem excludedUnits_keptUnits (fs : Registry) : excludedUnits (keptUnits fs) = [] := by
  unfold excludedUnits keptUnits
  rw [List.filter_filter, List.filter_eq_nil_iff]
  intro p _
  simp

theorem flagIsBoolean_keptUnits (fs : Registry) (hall : ∀ p ∈ fs, flagIsBoolean p = true) :
    ∀ p ∈ keptUnits fs, flagIsBoolean p = true :=
  fun p hp => hall p (List.mem_filter.1 hp).1

/-- C8: idempotence. When a first call completes without error, a second call on
the registry it leaves also completes without error and leaves that registry
unchanged; when that registry is non-empty the second call reports 0 excluded
units and as many kept units as there are units left. -/
theorem C8_second_call_excludes_nothing (verbose verbose2 : JSVal) (fs : Registry)
    (hwf : WF fs) (hok : (excludeNonDeployableFunctions verbose fs).error = none) :
    (excludeNonDeployableFunctions verbose2
        (excludeNonDeployableFunctions verbose fs).functions).error = none ∧
      (excludeNonDeployableFunctions verbose2
        (excludeNonDeployableFunctions verbose fs).functions).functions
        = (excludeNonDeployableFunctions verbose fs).functions ∧
      ((excludeNonDeployableFunctions verbose fs).functions ≠ [] →
        noticeMessages (excludeNonDeployableFunctions verbose2
          (excludeNonDeployableFunctions verbose fs).functions).log
          = [summaryLog 0 (excludeNonDeployableFunctions verbose fs).functions.length
              (excludeNonDeployableFunctions verbose fs).functions.length
              ++ verbosePrompt verbose2]) := by
  have hall := all_boolean_of_ok verbose fs hwf hok
  have hfun : (excludeNonDeployableFunctions verbose fs).functions = keptUnits fs := by
    by_cases hne : fs = []
    · subst hne; rw [run_empty]; rfl
    · rw [run_ok verbose fs hne hwf hall]
  rw [hfun]
  by_cases hk : keptUnits fs = []
  · rw [hk, run_empty]
    exact ⟨rfl, rfl, fun h => absurd rfl h⟩
  · rw [run_ok verbose2 (keptUnits fs) hk (WF_keptUnits fs hwf)
      (flagIsBoolean_keptUnits fs hall)]
    refine ⟨rfl, keptUnits_idem fs, fun _ => ?_⟩
    rw [noticeMessages_report, keptUnits_idem, excludedUnits_keptUnits]
    rfl

/-- C8 at the registry `{a: {toDeploy: false}, b: {toDeploy: true}, c: {}}`: the
second call keeps `b` and `c` and reports 0 excluded, 2 kept. -/
theorem C8_second_call_excludes_nothing_witness :
    WF scenarioABC ∧
      (excludeNonDeployableFunctions (.bool false) scenarioABC).error = none ∧
      (excludeNonDeployableFunctions (.bool true)
        (excludeNonDeployableFunctions (.bool false) scenarioABC).functions).functions
        = [("b", ⟨some (.bool true), []⟩), ("c", ⟨none, []⟩)] ∧
      noticeMessages (excludeNonDeployableFunctions (.bool true)
          (excludeNonDeployableFunctions (.bool false) scenarioABC).functions).log
        = [summaryLog 0 2 2 ++ verbosePrompt (.bool true)] :=
  ⟨by decide, by decide,
    (C8_second_call_excludes_nothing (.bool false) (.bool true) scenarioABC
      (by decide) (by decide)).2.1,
    (C8_second_call_excludes_nothing (.bool false) (.bool true) scenarioABC
      (by decide) (by decide)).2.2 (by decide)⟩

/-- C9, as stated, fails: for `{a: {toDeploy: false}, b: {toDeploy: true}, c: {}}`
with verbosity off the notice line is not "Excluded 1 unit(s) from deployment,
deploying 2 of 3 unit(s)." followed by the hint. The code writes the log prefix
first and says `function(s)`. -/
theorem C9_unit_wording_counterexample :
    noticeMessages (excludeNonDeployableFunctions (.bool false) scenarioABC).log
        ≠ ["Excluded 1 unit(s) from deployment, deploying 2 of 3 unit(s)."
            ++ " For more details, use --verbose command."] ∧
      noticeMessages (excludeNonDeployableFunctions (.bool false) scenarioABC).log
        = ["[serverless-selective-function-deploy]: Excluded 1 function(s) from deployment, deploying 2 of 3 function(s). For more details, use --verbose command."] := by
  decide

/-- C9, amended: for `{a: {toDeploy: false}, b: {toDeploy: true}, c: {}}` with
verbosity off the registry after the call is `{b, c}` and the notice line is
"[serverless-selective-function-deploy]: Excluded 1 function(s) from deployment,
deploying 2 of 3 function(s)." followed by the hint; and whenever a notice line
is emitted it is the only one, and it is the log prefix, then "Excluded
excludedCount function(s) from deployment, deploying keptCount of totalCount
function(s).", then the hint (when `options.verbose` is falsy) or nothing (when
it is truthy), where excludedCount is the number of units with
`toDeploy === false`, keptCount the number of units left in the registry and
totalCount the number of names enumerated. -/
theorem C9_notice_line_form (verbose : JSVal) (fs : Registry) (hwf : WF fs)
    (hlog : noticeMessages (excludeNonDeployableFunctions verbose fs).log ≠ []) :
    (excludeNonDeployableFunctions (.bool false) scenarioABC).functions
        = [("b", ⟨some (.bool true), []⟩), ("c", ⟨none, []⟩)] ∧
      noticeMessages (excludeNonDeployableFunctions (.bool false) scenarioABC).log
        = ["[serverless-selective-function-deploy]: Excluded 1 function(s) from deployment, deploying 2 of 3 function(s). For more details, use --verbose command."] ∧
      ((truthy verbose = false ∧
          noticeMessages (excludeNonDeployableFunctions verbose fs).log
            = ["[serverless-selective-function-deploy]:" ++ " Excluded "
                ++ toString (fs.filter flagIsFalse).length
                ++ " function(s) from deployment, deploying "
                ++ toString (excludeNonDeployableFunctions verbose fs).functions.length
                ++ " of " ++ toString (getAllFunctions fs).length ++ " function(s)."
                ++ " For more details, use --verbose command."]) ∨
        (truthy verbose = true ∧
          noticeMessages (excludeNonDeployableFunctions verbose fs).log
            = ["[serverless-selective-function-deploy]:" ++ " Excluded "
                ++ toString (fs.filter flagIsFalse).length
                ++ " function(s) from deployment, deploying "
                ++ toString (excludeNonDeployableFunctions verbose fs).functions.length
                ++ " of " ++ toString (getAllFunctions fs).length ++ " function(s)."])) ∧
      (fs.filter flagIsFalse).length
          + (excludeNonDeployableFunctions verbose fs).functions.length
        = (getAllFunctions fs).length := by
  refine ⟨by decide, by decide, ?_⟩
  rcases first_invalid fs with h | ⟨pre, n, u, post, he, hpre, hu⟩
  · by_cases hne : fs = []
    · subst hne
      rw [run_empty] at hlog
      exact absurd rfl hlog
    · have hsum := length_excluded_add_kept fs
      rw [excludedUnits_eq] at hsum
      rw [run_ok verbose fs hne hwf h, noticeMessages_report, excludedUnits_eq]
      simp only [getAllFunctions, List.length_map]
      refine ⟨?_, hsum⟩
      cases hv : truthy verbose with
      | false =>
        left
        have hp : verbosePrompt verbose = verboseHint := by simp [verbosePrompt, hv]
        rw [hp]
        exact ⟨rfl, rfl⟩
      | true =>
        right
        have hp : verbosePrompt verbose = "" := by simp [verbosePrompt, hv]
        rw [hp, String.append_empty]
        exact ⟨rfl, rfl⟩
  · subst he
    rw [run_fail verbose pre post n u hwf hpre hu] at hlog
    exact absurd rfl hlog

/-- C9, amended, at the scenario registry: the registry left, and with the
verbose option on the bare summary sentence with the counts 1, 2 and 3. -/
theorem C9_notice_line_form_witness :
    WF scenarioABC ∧
      noticeMessages (excludeNonDeployableFunctions (.bool true) scenarioABC).log ≠ [] ∧
      (excludeNonDeployableFunctions (.bool false) scenarioABC).functions
        = [("b", ⟨some (.bool true), []⟩), ("c", ⟨none, []⟩)] ∧
      noticeMessages (excludeNonDeployableFunctions (.bool true) scenarioABC).log
        = ["[serverless-selective-function-deploy]: Excluded 1 function(s) from deployment, deploying 2 of 3 function(s)."] ∧
      (scenarioABC.filter flagIsFalse).length
          + (excludeNonDeployableFunctions (.bool true) scenarioABC).functions.length
        = (getAllFunctions scenarioABC).length :=
  ⟨by decide, by decide,
    (C9_notice_line_form (.bool true) scenarioABC (by decide) (by decide)).1,
    by decide,
    (C9_notice_line_form (.bool true) scenarioABC (by decide) (by decide)).2.2.2⟩

/-- C10: on a non-empty registry on which the call completes without error, the
log is three verbose messages followed by the notice message: the header with
'Pre-deployment function summary:', then 'Excluded n function(s): names', then
'Included m function(s): names', each after the log prefix. The excluded names
are the units with `toDeploy === false` and the included names the other units,
each once, in enumeration order, joined by ', '. The value of `options.verbose`
plays no part in these three messages. -/
theorem C10_verbose_report (verbose : JSVal) (fs : Registry) (hne : fs ≠ []) (hwf : WF fs)
    (hok : (excludeNonDeployableFunctions verbose fs).error = none) :
    (∃ note : String, (excludeNonDeployableFunctions verbose fs).log
        = [ .verbose ("[serverless-selective-function-deploy]:"
              ++ " Pre-deployment function summary:"),
            .verbose ("[serverless-selective-function-deploy]:" ++ " Excluded "
              ++ toString (getAllFunctions (fs.filter flagIsFalse)).length
              ++ " function(s): "
              ++ String.intercalate ", " (getAllFunctions (fs.filter flagIsFalse))),
            .verbose ("[serverless-selective-function-deploy]:" ++ " Included "
              ++ toString (getAllFunctions (fs.filter (fun p => !flagIsFalse p))).length
              ++ " function(s): "
              ++ String.intercalate ", "
                  (getAllFunctions (fs.filter (fun p => !flagIsFalse p)))),
            .notice note ]) ∧
      (getAllFunctions (fs.filter flagIsFalse)).Nodup ∧
      (getAllFunctions (fs.filter (fun p => !flagIsFalse p))).Nodup ∧
      (getAllFunctions (fs.filter flagIsFalse)).Sublist (getAllFunctions fs) ∧
      (getAllFunctions (fs.filter (fun p => !flagIsFalse p))).Sublist (getAllFunctions fs) ∧
      (∀ n ∈ getAllFunctions fs,
        (n ∈ getAllFunctions (fs.filter flagIsFalse)
          ↔ n ∉ getAllFunctions (fs.filter (fun p => !flagIsFalse p)))) ∧
      verboseMessages (excludeNonDeployableFunctions verbose fs).log
        = verboseMessages (excludeNonDeployableFunctions (.bool true) fs).log := by
  have hall := all_boolean_of_ok verbose fs hwf hok
  have hex := WF_excludedUnits fs hwf
  have hke := WF_keptUnits fs hwf
  rw [excludedUnits_eq] at hex
  rw [keptUnits_eq] at hke
  refine ⟨⟨summaryLog (excludedUnits fs).length (keptUnits fs).length fs.length
      ++ verbosePrompt verbose, ?_⟩, hex, hke, List.Sublist.map _ (List.filter_sublist fs),
    List.Sublist.map _ (List.filter_sublist fs), ?_, ?_⟩
  · rw [run_ok verbose fs hne hwf hall, excludedUnits_eq, keptUnits_eq]
    rfl
  · intro n hn
    obtain ⟨p, hp, rfl⟩ := List.mem_map.1 hn
    have hinj := List.inj_on_of_nodup_map hwf
    constructor
    · intro h1 h2
      obtain ⟨q, hq, hqp⟩ := List.mem_map.1 h1
      obtain ⟨r, hr, hrp⟩ := List.mem_map.1 h2
      have hq2 := List.mem_filter.1 hq
      have hr2 := List.mem_filter.1 hr
      have e1 : q = p := hinj hq2.1 hp hqp
      have e2 : r = p := hinj hr2.1 hp hrp
      subst e1
      subst e2
      have := hr2.2
      simp [hq2.2] at this
    · intro h2
      cases hf : flagIsFalse p with
      | true => exact List.mem_map_of_mem _ (List.mem_filter.2 ⟨hp, hf⟩)
      | false =>
        exfalso
        exact h2 (List.mem_map_of_mem _ (List.mem_filter.2 ⟨hp, by simp [hf]⟩))
  · rw [run_ok verbose fs hne hwf hall, run_ok (.bool true) fs hne hwf hall,
      verboseMessages_report, verboseMessages_report]

/-- C10 at the registry `{func1: {toDeploy: false}, func2: {toDeploy: true}}` of
the test suite, with the verbose option off: the three verbose messages are
emitted all the same. -/
theorem C10_verbose_report_witness :
    verboseMessages (excludeNonDeployableFunctions (.bool false)
        [("func1", ⟨some (.bool false), []⟩), ("func2", ⟨some (.bool true), []⟩)]).log
      = ["[serverless-selective-function-deploy]: Pre-deployment function summary:",
         "[serverless-selective-function-deploy]: Excluded 1 function(s): func1",
         "[serverless-selective-function-deploy]: Included 1 function(s): func2"] :=
  ((C10_verbose_report (.bool false)
      [("func1", ⟨some (.bool false), []⟩), ("func2", ⟨some (.bool true), []⟩)]
      (by decide) (by decide) (by decide)).2.2.2.2.2.2).trans (by decide)

/-- C11: evaluated on the code, the hooks object after construction has no
entry under the key 'after:package:cleanup' (the read gives `undefined`); its
only key is 'before:package:createDeploymentArtifacts'. -/
theorem C11_cleanup_hook_absent :
    (hookAt construct "after:package:cleanup").isNone = true ∧
      construct.hooks.map Prod.fst = ["before:package:createDeploymentArtifacts"] := by
  constructor
  · rfl
  · rfl

/-- C14: the constructor makes one declaration on the schema handler, for the
provider 'aws', with the schema `{properties: {toDeploy: {type: 'boolean'}},
required: []}`: `toDeploy` is a boolean property, and nothing is required. -/
theorem C14_schema_declaration :
    construct.declarations
        = [⟨"aws", ⟨[("toDeploy", ⟨"boolean"⟩)], []⟩⟩] ∧
      (∀ d ∈ construct.declarations, d.provider = "aws" ∧
        d.schema.properties.lookup "toDeploy" = some ⟨"boolean"⟩ ∧
        d.schema.properties.map Prod.fst = ["toDeploy"] ∧
        d.schema.required = [] ∧ "toDeploy" ∉ d.schema.required) := by
  refine ⟨rfl, ?_⟩
  intro d hd
  have hd2 : d = ⟨"aws", ⟨[("toDeploy", ⟨"boolean"⟩)], []⟩⟩ := by
    simpa [construct, setupFunctionProperties] using hd
  subst hd2
  exact ⟨rfl, rfl, rfl, rfl, by simp⟩

/-- C15: the plugin registers exactly one lifecycle hook, under the key
'before:package:createDeploymentArtifacts', and running that hook is running
`excludeNonDeployableFunctions`: same error, same registry, same messages. -/
theorem C15_single_hook :
    construct.hooks.map Prod.fst = ["before:package:createDeploymentArtifacts"] ∧
      ∃ hook : Hook,
        hookAt construct "before:package:createDeploymentArtifacts" = some hook ∧
        ∀ (verbose : JSVal) (fs : Registry),
          hook verbose fs = excludeNonDeployableFunctions verbose fs :=
  ⟨rfl, _, rfl, fun _ _ => rfl⟩

/-! ### The frame of the loop -/

/-- The loop only ever filters the registry it was given. -/
theorem classifyLoop_sublist (names : List String) :
    ∀ st : LoopState, (classifyLoop names st).2.functions.Sublist st.functions := by
  induction names with
  | nil => intro st; exact List.Sublist.refl _
  | cons n names ih =>
    intro st
    unfold classifyLoop
    split
    · exact List.Sublist.refl _
    · dsimp only
      split
      · exact List.Sublist.refl _
      · split
        · exact (ih _).trans (List.filter_sublist _)
        · exact ih _

/-- Every run leaves a sublist of the registry it was given. -/
theorem run_sublist (verbose : JSVal) (fs : Registry) :
    (excludeNonDeployableFunctions verbose fs).functions.Sublist fs := by
  have h := classifyLoop_sublist (getAllFunctions fs) ⟨fs, [], []⟩
  unfold excludeNonDeployableFunctions
  simp only []
  split
  · exact List.Sublist.refl _
  · split
    · rename_i e st heq
      rw [heq] at h
      exact h
    · rename_i st heq
      rw [heq] at h
      exact h

theorem mem_of_getFunction (fs : Registry) (n : String) (r : FunctionConfig)
    (h : getFunction fs n = some r) : (n, r) ∈ fs := by
  induction fs with
  | nil => simp [getFunction, List.lookup] at h
  | cons q fs ih =>
    obtain ⟨k, v⟩ := q
    unfold getFunction at h ih
    by_cases hk : n = k
    · subst hk
      simp [List.lookup] at h
      subst h
      exact List.mem_cons_self _ _
    · have hb : (n == k) = false := by simpa using hk
      simp only [List.lookup, hb] at h
      exact List.mem_cons_of_mem _ (ih h)

theorem getFunction_of_mem (fs : Registry) (hwf : WF fs) (n : String) (r : FunctionConfig)
    (h : (n, r) ∈ fs) : getFunction fs n = some r := by
  obtain ⟨done, rest, rfl⟩ := List.append_of_mem h
  obtain ⟨hd, -, -, -⟩ := WF_split done rest n r hwf
  exact getFunction_append_cons done rest n r hd

/-- C12: the filter only deletes registry entries. After every run, failing or
not, the registry is the one before with some entries taken out: every name
left was there before, and every name left maps to the record it mapped to
before, `toDeploy` value or its absence included. -/
theorem C12_only_deletes (verbose : JSVal) (fs : Registry) (hwf : WF fs) :
    (excludeNonDeployableFunctions verbose fs).functions.Sublist fs ∧
      (∀ n ∈ getAllFunctions (excludeNonDeployableFunctions verbose fs).functions,
        n ∈ getAllFunctions fs) ∧
      (∀ (n : String) (r : FunctionConfig),
        getFunction (excludeNonDeployableFunctions verbose fs).functions n = some r →
          getFunction fs n = some r) := by
  have hsub := run_sublist verbose fs
  refine ⟨hsub, ?_, ?_⟩
  · intro n hn
    exact (List.Sublist.map Prod.fst hsub).subset hn
  · intro n r h
    exact getFunction_of_mem fs hwf n r (hsub.subset (mem_of_getFunction _ n r h))

/-- C12 at `{a: {toDeploy: false}, b: {toDeploy: 'yes'}, c: {toDeploy: false}}`,
a failing run: what is left is a part of what was there. -/
theorem C12_only_deletes_witness :
    WF scenarioPartial ∧
      (excludeNonDeployableFunctions (.bool false) scenarioPartial).functions.Sublist
        scenarioPartial ∧
      getFunction (excludeNonDeployableFunctions (.bool false) scenarioPartial).functions "c"
        = getFunction scenarioPartial "c" :=
  ⟨by decide, (C12_only_deletes (.bool false) scenarioPartial (by decide)).1, by decide⟩

/-- C16, as stated, fails: in `{x: {toDeploy: undefined}}` the property is there
with a value that is not a boolean, yet the call raises no error and keeps `x`,
which is how a unit flagged `true` is treated. -/
theorem C16_explicit_undefined_counterexample :
    (∃ p ∈ scenarioUndefined, ∃ v, p.2.toDeploy = some v ∧ typeof v ≠ "boolean") ∧
      (excludeNonDeployableFunctions (.bool false) scenarioUndefined).error = none ∧
      (excludeNonDeployableFunctions (.bool false) scenarioUndefined).functions
        = scenarioUndefined ∧
      (excludeNonDeployableFunctions (.bool false) scenarioUndefined).log
        = (excludeNonDeployableFunctions (.bool false) [("x", ⟨some (.bool true), []⟩)]).log :=
  ⟨⟨("x", ⟨some .undefined, []⟩), by decide, .undefined, rfl, by decide⟩,
    by decide, by decide, by decide⟩

/-- C16, amended: a unit whose `toDeploy` property is there with a value that is
neither a boolean nor `undefined` (a number such as 0, a string such as '',
`null`) makes the call raise the configuration error; the value is not coerced
to `false` or `true`. -/
theorem C16_no_coercion (verbose : JSVal) (fs : Registry) (hwf : WF fs)
    (p : String × FunctionConfig) (hp : p ∈ fs) (v : JSVal)
    (hv : p.2.toDeploy = some v) (hb : typeof v ≠ "boolean") (hu : v ≠ .undefined) :
    (excludeNonDeployableFunctions verbose fs).error
      = some "toDeploy property must be a boolean" := by
  have hres : resolveToDeploy p.2 = v := by
    unfold resolveToDeploy
    rw [hv]
    cases v <;> first | rfl | exact absurd rfl hu
  have hflag : flagIsBoolean p = false := by
    simpa [flagIsBoolean, hres] using hb
  rcases first_invalid fs with h | ⟨pre, n, u, post, he, hpre, hu2⟩
  · rw [h p hp] at hflag
    exact absurd hflag (by decide)
  · subst he
    rw [run_fail verbose pre post n u hwf hpre hu2]
    rfl

/-- C16, amended, at the falsy values 0, '' and `null`: each raises the error. -/
theorem C16_no_coercion_witness :
    (excludeNonDeployableFunctions (.bool false) [("x", ⟨some (.num 0), []⟩)]).error
        = some "toDeploy property must be a boolean" ∧
      (excludeNonDeployableFunctions (.bool false) [("x", ⟨some (.str ""), []⟩)]).error
        = some "toDeploy property must be a boolean" ∧
      (excludeNonDeployableFunctions (.bool false) [("x", ⟨some .null, []⟩)]).error
        = some "toDeploy property must be a boolean" :=
  ⟨C16_no_coercion (.bool false) [("x", ⟨some (.num 0), []⟩)] (by decide)
      ("x", ⟨some (.num 0), []⟩) (by decide) (.num 0) rfl (by decide) (by decide),
    C16_no_coercion (.bool false) [("x", ⟨some (.str ""), []⟩)] (by decide)
      ("x", ⟨some (.str ""), []⟩) (by decide) (.str "") rfl (by decide) (by decide),
    C16_no_coercion (.bool false) [("x", ⟨some .null, []⟩)] (by decide)
      ("x", ⟨some .null, []⟩) (by decide) .null rfl (by decide) (by decide)⟩

/-! ### The verbose option and the guard of line 53 -/

/-- Each iteration that does not throw appends one name to one of the two lists. -/
theorem classifyLoop_count (names : List String) :
    ∀ st st' : LoopState, classifyLoop names st = (none, st') →
      st'.excludedFunctions.length + st'.toDeployFunctions.length
        = st.excludedFunctions.length + st.toDeployFunctions.length + names.length := by
  induction names with
  | nil =>
    intro st st' h
    simp only [classifyLoop, Prod.mk.injEq, true_and] at h
    subst h
    simp
  | cons n names ih =>
    intro st st' h
    unfold classifyLoop at h
    split at h
    · simp at h
    · dsimp only at h
      split at h
      · simp at h
      · split at h
        · have := ih _ _ h
          simp only [List.length_append, List.length_cons, List.length_nil] at this ⊢
          omega
        · have := ih _ _ h
          simp only [List.length_append, List.length_cons, List.length_nil] at this ⊢
          omega

/-- The three ways a run can end, read off the body of the method. -/
theorem run_shape (verbose : JSVal) (fs : Registry) :
    (fs = [] ∧ excludeNonDeployableFunctions verbose fs = ⟨none, fs, []⟩) ∨
    (fs ≠ [] ∧ ∃ (err : String) (st : LoopState),
      classifyLoop (getAllFunctions fs) ⟨fs, [], []⟩ = (some err, st) ∧
      excludeNonDeployableFunctions verbose fs = ⟨some err, st.functions, []⟩) ∨
    (fs ≠ [] ∧ ∃ st : LoopState,
      classifyLoop (getAllFunctions fs) ⟨fs, [], []⟩ = (none, st) ∧
      excludeNonDeployableFunctions verbose fs
        = ⟨none, st.functions,
            verboseReport st.excludedFunctions st.toDeployFunctions
              ++ [.notice (summaryLog st.excludedFunctions.length st.toDeployFunctions.length
                    (getAllFunctions fs).length ++ verbosePrompt verbose)]⟩) := by
  by_cases hne : fs = []
  · left
    subst hne
    exact ⟨rfl, run_empty verbose⟩
  · right
    have hlen : (getAllFunctions fs).length ≠ 0 := by
      simpa [getAllFunctions] using hne
    rcases hloop : classifyLoop (getAllFunctions fs) ⟨fs, [], []⟩ with ⟨e, st⟩
    cases e with
    | some err =>
      left
      refine ⟨hne, err, st, rfl, ?_⟩
      simp [excludeNonDeployableFunctions, hlen, hloop]
    | none =>
      right
      refine ⟨hne, st, rfl, ?_⟩
      have hcount := classifyLoop_count _ _ _ hloop
      simp only [List.length_nil, Nat.zero_add] at hcount
      have hguard : st.excludedFunctions.length > 0 ∨ st.toDeployFunctions.length > 0 := by
        omega
      simp [excludeNonDeployableFunctions, hlen, hloop, hguard]

/-- C17: the verbose option does not influence filtering. A run with
`options.verbose` truthy and a run with it falsy end with the same error or
none, the same registry and the same verbose messages; the notice message, when
there is one, is the same sentence, with the hint after it in the falsy run
only. -/
theorem C17_verbose_does_not_filter (v1 v2 : JSVal) (fs : Registry)
    (h1 : truthy v1 = true) (h2 : truthy v2 = false) :
    (excludeNonDeployableFunctions v1 fs).error
        = (excludeNonDeployableFunctions v2 fs).error ∧
      (excludeNonDeployableFunctions v1 fs).functions
        = (excludeNonDeployableFunctions v2 fs).functions ∧
      verboseMessages (excludeNonDeployableFunctions v1 fs).log
        = verboseMessages (excludeNonDeployableFunctions v2 fs).log ∧
      noticeMessages (excludeNonDeployableFunctions v2 fs).log
        = (noticeMessages (excludeNonDeployableFunctions v1 fs).log).map
            (fun m => m ++ " For more details, use --verbose command.") ∧
      (noticeMessages (excludeNonDeployableFunctions v1 fs).log).length ≤ 1 := by
  have hp1 : verbosePrompt v1 = "" := by simp [verbosePrompt, h1]
  have hp2 : verbosePrompt v2 = verboseHint := by simp [verbosePrompt, h2]
  rcases run_shape v1 fs with ⟨hfs, e1⟩ | ⟨-, err, st, hl, e1⟩ | ⟨-, st, hl, e1⟩
  · subst hfs
    rw [run_empty, run_empty]
    exact ⟨rfl, rfl, rfl, rfl, by simp [noticeMessages]⟩
  · rcases run_shape v2 fs with ⟨hfs, -⟩ | ⟨-, err2, st2, hl2, e2⟩ | ⟨-, st2, hl2, -⟩
    · subst hfs
      rw [run_empty, run_empty]
      exact ⟨rfl, rfl, rfl, rfl, by simp [noticeMessages]⟩
    · rw [hl] at hl2
      simp only [Prod.mk.injEq, Option.some.injEq] at hl2
      obtain ⟨he, hs⟩ := hl2
      subst he
      subst hs
      rw [e1, e2]
      exact ⟨rfl, rfl, rfl, rfl, by simp [noticeMessages]⟩
    · rw [hl] at hl2
      simp at hl2
  · rcases run_shape v2 fs with ⟨hfs, -⟩ | ⟨-, err2, st2, hl2, -⟩ | ⟨-, st2, hl2, e2⟩
    · subst hfs
      rw [run_empty, run_empty]
      exact ⟨rfl, rfl, rfl, rfl, by simp [noticeMessages]⟩
    · rw [hl] at hl2
      simp at hl2
    · rw [hl] at hl2
      simp only [Prod.mk.injEq, true_and] at hl2
      subst hl2
      rw [e1, e2, hp1, hp2]
      simp only [noticeMessages_report, verboseMessages_report, String.append_empty,
        List.map_cons, List.map_nil, List.length_singleton, le_refl, and_true, true_and]
      rfl

/-- C17 at the registry `{a: {toDeploy: false}, b: {toDeploy: true}, c: {}}`, with
`verbose: true` against `verbose: false`. -/
theorem C17_verbose_does_not_filter_witness :
    truthy (.bool true) = true ∧ truthy (.bool false) = false ∧
      (excludeNonDeployableFunctions (.bool true) scenarioABC).functions
        = (excludeNonDeployableFunctions (.bool false) scenarioABC).functions ∧
      noticeMessages (excludeNonDeployableFunctions (.bool false) scenarioABC).log
        = (noticeMessages (excludeNonDeployableFunctions (.bool true) scenarioABC).log).map
            (fun m => m ++ " For more details, use --verbose command.") :=
  ⟨rfl, rfl,
    (C17_verbose_does_not_filter (.bool true) (.bool false) scenarioABC rfl rfl).2.1,
    (C17_verbose_does_not_filter (.bool true) (.bool false) scenarioABC rfl rfl).2.2.2.1⟩

/-- C18: when the loop finishes on a non-empty enumeration without error, the two
lists together hold as many names as were enumerated, which is more than none;
so the guard of line 53 holds, the verbose report is not skipped, and the run
emits exactly 3 verbose messages and 1 notice message. -/
theorem C18_guard_holds (verbose : JSVal) (fs : Registry)
    (hne : (getAllFunctions fs).length ≠ 0)
    (hok : (classifyLoop (getAllFunctions fs) ⟨fs, [], []⟩).1 = none) :
    (classifyLoop (getAllFunctions fs) ⟨fs, [], []⟩).2.excludedFunctions.length
          + (classifyLoop (getAllFunctions fs) ⟨fs, [], []⟩).2.toDeployFunctions.length
        = (getAllFunctions fs).length ∧
      (getAllFunctions fs).length > 0 ∧
      ((classifyLoop (getAllFunctions fs) ⟨fs, [], []⟩).2.excludedFunctions.length > 0
        ∨ (classifyLoop (getAllFunctions fs) ⟨fs, [], []⟩).2.toDeployFunctions.length > 0) ∧
      (excludeNonDeployableFunctions verbose fs).error = none ∧
      (verboseMessages (excludeNonDeployableFunctions verbose fs).log).length = 3 ∧
      (noticeMessages (excludeNonDeployableFunctions verbose fs).log).length = 1 := by
  rcases hloop : classifyLoop (getAllFunctions fs) ⟨fs, [], []⟩ with ⟨e, st⟩
  rw [hloop] at hok
  simp only at hok
  subst hok
  have hcount := classifyLoop_count _ _ _ hloop
  simp only [List.length_nil, Nat.zero_add] at hcount
  have hfs : fs ≠ [] := by
    intro h
    subst h
    exact hne rfl
  rcases run_shape verbose fs with ⟨hfs2, -⟩ | ⟨-, err2, st2, hl2, -⟩ | ⟨-, st2, hl2, e2⟩
  · exact absurd hfs2 hfs
  · rw [hloop] at hl2
    simp at hl2
  · rw [hloop] at hl2
    simp only [Prod.mk.injEq, true_and] at hl2
    subst hl2
    rw [e2, noticeMessages_report, verboseMessages_report]
    dsimp only
    refine ⟨hcount, by omega, by omega, rfl, rfl, rfl⟩

/-- C18 at the registry `{a: {toDeploy: false}, b: {toDeploy: true}, c: {}}`. -/
theorem C18_guard_holds_witness :
    (getAllFunctions scenarioABC).length ≠ 0 ∧
      (classifyLoop (getAllFunctions scenarioABC) ⟨scenarioABC, [], []⟩).1 = none ∧
      (verboseMessages (excludeNonDeployableFunctions (.bool false) scenarioABC).log).length
        = 3 ∧
      (noticeMessages (excludeNonDeployableFunctions (.bool false) scenarioABC).log).length
        = 1 :=
  ⟨by decide, by decide,
    (C18_guard_holds (.bool false) scenarioABC (by decide) (by decide)).2.2.2.2.1,
    (C18_guard_holds (.bool false) scenarioABC (by decide) (by decide)).2.2.2.2.2⟩

/-! ### Enumeration order -/

/-- The state the loop ends in on a registry without invalid flag. -/
theorem classifyLoop_whole (fs : Registry) (hwf : WF fs)
    (hall : ∀ p ∈ fs, flagIsBoolean p = true) :
    classifyLoop (getAllFunctions fs) ⟨fs, [], []⟩
      = (none, ⟨keptUnits fs, getAllFunctions (excludedUnits fs),
          getAllFunctions (keptUnits fs)⟩) := by
  have h := classifyLoop_ok fs [] [] [] (by simpa using hwf) hall
  simpa [getAllFunctions] using h

/-- The final registry of a run without invalid flag. -/
theorem run_functions_of_valid (verbose : JSVal) (fs : Registry) (hwf : WF fs)
    (hall : ∀ p ∈ fs, flagIsBoolean p = true) :
    (excludeNonDeployableFunctions verbose fs).error = none ∧
      (excludeNonDeployableFunctions verbose fs).functions = keptUnits fs := by
  by_cases hne : fs = []
  · subst hne
    rw [run_empty]
    exact ⟨rfl, rfl⟩
  · rw [run_ok verbose fs hne hwf hall]
    exact ⟨rfl, rfl⟩

/-- C13: classification does not depend on the enumeration order. For a registry
without invalid flag and any reordering of it, both calls succeed and end with
the same registry entries, excluded and kept name sequences that are
permutations of each other (so the same counts), and the same notice message;
and a unit is kept exactly when its own `toDeploy` is not `false`. -/
theorem C13_order_independent (verbose : JSVal) (fs fs2 : Registry) (hwf : WF fs)
    (hall : ∀ p ∈ fs, typeof (resolveToDeploy p.2) = "boolean") (hperm : fs2.Perm fs) :
    (excludeNonDeployableFunctions verbose fs2).error = none ∧
      (excludeNonDeployableFunctions verbose fs).error = none ∧
      (excludeNonDeployableFunctions verbose fs2).functions.Perm
        (excludeNonDeployableFunctions verbose fs).functions ∧
      (getAllFunctions (excludeNonDeployableFunctions verbose fs2).functions).Perm
        (getAllFunctions (excludeNonDeployableFunctions verbose fs).functions) ∧
      (classifyLoop (getAllFunctions fs2) ⟨fs2, [], []⟩).2.excludedFunctions.Perm
        (classifyLoop (getAllFunctions fs) ⟨fs, [], []⟩).2.excludedFunctions ∧
      (classifyLoop (getAllFunctions fs2) ⟨fs2, [], []⟩).2.toDeployFunctions.Perm
        (classifyLoop (getAllFunctions fs) ⟨fs, [], []⟩).2.toDeployFunctions ∧
      (classifyLoop (getAllFunctions fs2) ⟨fs2, [], []⟩).2.excludedFunctions.length
        = (classifyLoop (getAllFunctions fs) ⟨fs, [], []⟩).2.excludedFunctions.length ∧
      (classifyLoop (getAllFunctions fs2) ⟨fs2, [], []⟩).2.toDeployFunctions.length
        = (classifyLoop (getAllFunctions fs) ⟨fs, [], []⟩).2.toDeployFunctions.length ∧
      noticeMessages (excludeNonDeployableFunctions verbose fs2).log
        = noticeMessages (excludeNonDeployableFunctions verbose fs).log ∧
      (∀ p ∈ fs, (p ∈ (excludeNonDeployableFunctions verbose fs2).functions
        ↔ p.2.toDeploy ≠ some (.bool false))) := by
  have hallb : ∀ p ∈ fs, flagIsBoolean p = true := by
    intro p hp
    simpa [flagIsBoolean] using hall p hp
  have hall2 : ∀ p ∈ fs2, flagIsBoolean p = true :=
    fun p hp => hallb p (hperm.subset hp)
  have hwf2 : WF fs2 := by
    unfold WF at *
    exact (hperm.map Prod.fst).nodup_iff.2 hwf
  have hk : (keptUnits fs2).Perm (keptUnits fs) := hperm.filter _
  have hx : (excludedUnits fs2).Perm (excludedUnits fs) := hperm.filter _
  obtain ⟨he2, hf2⟩ := run_functions_of_valid verbose fs2 hwf2 hall2
  obtain ⟨he, hf⟩ := run_functions_of_valid verbose fs hwf hallb
  have hxn : (getAllFunctions (excludedUnits fs2)).Perm (getAllFunctions (excludedUnits fs)) :=
    hx.map Prod.fst
  have hkn : (getAllFunctions (keptUnits fs2)).Perm (getAllFunctions (keptUnits fs)) :=
    hk.map Prod.fst
  rw [classifyLoop_whole fs hwf hallb, classifyLoop_whole fs2 hwf2 hall2]
  refine ⟨he2, he, ?_, ?_, hxn, hkn, hxn.length_eq, hkn.length_eq, ?_, ?_⟩
  · rw [hf2, hf]
    exact hk
  · rw [hf2, hf]
    exact hkn
  · by_cases hne : fs = []
    · subst hne
      have : fs2 = [] := hperm.eq_nil
      subst this
      rfl
    · have hne2 : fs2 ≠ [] := by
        intro h
        subst h
        exact hne hperm.symm.eq_nil
      rw [run_ok verbose fs hne hwf hallb, run_ok verbose fs2 hne2 hwf2 hall2,
        noticeMessages_report, noticeMessages_report, hx.length_eq, hk.length_eq,
        hperm.length_eq]
  · intro p hp
    rw [hf2, keptUnits_eq, List.mem_filter]
    constructor
    · rintro ⟨-, h⟩ hfalse
      simp [flagIsFalse, hfalse] at h
    · intro h
      exact ⟨hperm.symm.subset hp, by simpa [flagIsFalse] using h⟩

/-- C13 at `{a: {toDeploy: false}, b: {toDeploy: true}, c: {}}` enumerated as
`c, a, b`: the same units are left. -/
theorem C13_order_independent_witness :
    WF scenarioABC ∧
      (excludeNonDeployableFunctions (.bool false)
          [("c", ⟨none, []⟩), ("a", ⟨some (.bool false), []⟩),
           ("b", ⟨some (.bool true), []⟩)]).functions.Perm
        (excludeNonDeployableFunctions (.bool false) scenarioABC).functions ∧
      noticeMessages (excludeNonDeployableFunctions (.bool false)
          [("c", ⟨none, []⟩), ("a", ⟨some (.bool false), []⟩),
           ("b", ⟨some (.bool true), []⟩)]).log
        = noticeMessages (excludeNonDeployableFunctions (.bool false) scenarioABC).log :=
  ⟨by decide,
    (C13_order_independent (.bool false) scenarioABC
      [("c", ⟨none, []⟩), ("a", ⟨some (.bool false), []⟩), ("b", ⟨some (.bool true), []⟩)]
      (by decide) (by decide) (by decide)).2.2.1,
    (C13_order_independent (.bool false) scenarioABC
      [("c", ⟨none, []⟩), ("a", ⟨some (.bool false), []⟩), ("b", ⟨some (.bool true), []⟩)]
      (by decide) (by decide) (by decide)).2.2.2.2.2.2.2.2.1⟩

end SelectiveFunctionDeploy
